import Mathlib

/-!
# Verification of the generate–execute–repair orchestrator core

This development shallowly embeds the core components of the orchestrator
(`multi_agent_orchestrator.py`, `code_specialist_agent.py`,
`sandbox_services.py`) in Lean and proves the specification claims about
them.  Python strings are modelled as `List Char` (wrapped in `String` at
the interfaces); Python dicts are modelled as insertion-ordered
association lists; Python exceptions are modelled with `Except`.
Character classes (`\s`, `\w`, `str.lower`) are modelled over their ASCII
behaviour, which covers every input appearing in the program's prompts,
fixed keyword sets and the concrete inputs of the theorems below.
Python `set` iteration order (used by `_detect_project_config` over
`set(files.keys())`) is unspecified; the embedding fixes it to key
insertion order.
-/

namespace Assistant

/-- ASCII model of the `\s` / `str.strip` whitespace class. -/
def isPySpace (c : Char) : Bool :=
  c = ' ' ∨ c = '\t' ∨ c = '\n' ∨ c = '\x0d' ∨ c = '\x0b' ∨ c = '\x0c'

/-- ASCII model of the regex `\w` word-character class. -/
def isWordChar (c : Char) : Bool :=
  c.isAlphanum ∨ c = '_'

/-- ASCII model of `str.lower`. -/
def lowerChars (l : List Char) : List Char :=
  l.map Char.toLower

/-- Does `pat` occur at the head of `l`? (model of an anchored literal match) -/
def startsWith : List Char → List Char → Bool
  | _, [] => true
  | [], _ :: _ => false
  | c :: l, p :: ps => c = p ∧ startsWith l ps

/-- Substring containment, model of Python's `pat in s`. -/
def containsSub : List Char → List Char → Bool
  | [], pat => startsWith [] pat
  | c :: rest, pat => startsWith (c :: rest) pat || containsSub rest pat

/-- Index of the first occurrence of `pat` in `l`, model of `re.search`
on a literal (used for the case-insensitive `FILES:` lookup). -/
def indexOfSub : List Char → List Char → Option Nat
  | [], pat => if startsWith [] pat then some 0 else none
  | c :: rest, pat =>
    if startsWith (c :: rest) pat then some 0
    else (indexOfSub rest pat).map (· + 1)

/-- Model of Python `str.endswith`. -/
def endsWithStr (s suf : String) : Bool :=
  let a := s.toList
  let b := suf.toList
  decide (b.length ≤ a.length) ∧ a.drop (a.length - b.length) = b

/-- Model of Python `str.replace pat rep` (all non-overlapping
occurrences, scanning left to right).  `fuel` is the length of the
subject, which bounds the number of scan steps. -/
def replaceAllGo (pat rep : List Char) : Nat → List Char → List Char
  | 0, l => l
  | _ + 1, [] => []
  | fuel + 1, c :: l =>
    if pat ≠ [] ∧ startsWith (c :: l) pat then
      rep ++ replaceAllGo pat rep fuel ((c :: l).drop pat.length)
    else
      c :: replaceAllGo pat rep fuel l

def replaceAll (l pat rep : List Char) : List Char :=
  replaceAllGo pat rep l.length l

/-- Model of `re.findall(r'\w+', s)`: maximal runs of word characters. -/
def wordRuns : List Char → List (List Char)
  | [] => []
  | c :: l =>
    if isWordChar c then
      match wordRuns l with
      | [] => [[c]]
      | w :: ws =>
        match l with
        | [] => [[c]]
        | d :: _ => if isWordChar d then (c :: w) :: ws else [c] :: w :: ws
    else wordRuns l

/-- Model of `'-'.join` on char runs. -/
def joinHyphen : List (List Char) → List Char
  | [] => []
  | [w] => w
  | w :: ws => w ++ '-' :: joinHyphen ws

/-- Model of Python `str.strip()` (both ends, whitespace). -/
def stripChars (l : List Char) : List Char :=
  ((l.dropWhile isPySpace).reverse.dropWhile isPySpace).reverse

/-- Model of Python `str.split('/')` (never returns `[]`; `""` splits to
`[""]`). -/
def splitSlash : List Char → List (List Char)
  | [] => [[]]
  | c :: l =>
    match splitSlash l with
    | [] => [[]]
    | w :: ws => if c = '/' then [] :: w :: ws else (c :: w) :: ws

/--
Source `MultiAgentOrchestrator._extract_project_name` (multi_agent_orchestrator.py).
Lowercases the message, then for each stop word `w` sequentially replaces
the substrings `" w "`→`" "`, `"w "`→`""`, `" w"`→`""`, then takes the
first three `\w+` runs joined by hyphens, capped at 30 characters, with
`"my-project"` as the default when no word characters remain.
-/
def extractProjectName (userMessage : String) : String :=
  let msg0 := lowerChars userMessage.toList
  let removeWords := ["create", "build", "make", "a", "an", "the", "app",
    "application", "project"]
  let msg := removeWords.foldl (fun m w =>
    let wc := w.toList
    let m1 := replaceAll m (' ' :: wc ++ [' ']) [' ']
    let m2 := replaceAll m1 (wc ++ [' ']) []
    replaceAll m2 (' ' :: wc) []) msg0
  let ws := wordRuns msg
  if ws ≠ [] then
    String.mk ((joinHyphen (ws.take 3)).take 30)
  else
    "my-project"

/-! ## Project Classifier (`CodeSpecialistAgent._detect_project_config`) -/

/-- The `ProjectConfig` record produced by `_detect_project_config`. -/
structure ProjectConfig where
  project_type : String
  language : String
  is_server : Bool
  start_command : Option String
  install_command : Option String
  port : Option Nat
  dependencies : List String
  deriving Repr, DecidableEq

/-- Model of dict key lookup `files[k]` / `k in files` (keys are unique
in a Python dict; first binding is authoritative). -/
def lookupStr : List (String × String) → String → Option String
  | [], _ => none
  | (k, v) :: l, key => if k = key then some v else lookupStr l key

/-- The keys of the file mapping, in insertion order (model of
`set(files.keys())`, with Python's unspecified set order fixed to
insertion order). -/
def keysOf (files : List (String × String)) : List String :=
  files.map Prod.fst

/-- Case-insensitive content containment `pat in files[f].lower()`. -/
def contentHas (content : String) (pat : String) : Bool :=
  containsSub (lowerChars content.toList) pat.toList

/--
Source `CodeSpecialistAgent._detect_project_config` (code_specialist_agent.py,
lines 371–473): ordered rule evaluation over the parsed file mapping.
-/
def detectProjectConfig (files : List (String × String)) : ProjectConfig :=
  match lookupStr files "package.json" with
  | some pj =>
    if contentHas pj "react" then
      ⟨"react", "javascript", true, some "npm start", some "npm install",
        some 5555, ["react", "react-dom"]⟩
    else if contentHas pj "express" then
      ⟨"express", "javascript", true, some "node index.js", some "npm install",
        some 5555, ["express"]⟩
    else
      ⟨"node", "javascript", false, some "node index.js", some "npm install",
        none, []⟩
  | none =>
    if files.any (fun p => contentHas p.2 "flask") then
      ⟨"flask", "python", true, some "python app.py",
        some "pip install -r requirements.txt", some 5000, ["flask"]⟩
    else if files.any (fun p => contentHas p.2 "fastapi") then
      ⟨"fastapi", "python", true, some "uvicorn main:app --port 8100",
        some "pip install -r requirements.txt", some 8100,
        ["fastapi", "uvicorn"]⟩
    else if (keysOf files).any (fun f => endsWithStr f ".py") then
      let entry := ((keysOf files).find? (fun f =>
        f = "main.py" ∨ f = "app.py")).getD (((keysOf files).head?).getD "")
      ⟨"python", "python", false, some ("python " ++ entry), none, none, []⟩
    else if (keysOf files).any (fun f => endsWithStr f ".js") then
      ⟨"javascript", "javascript", false, some "node index.js", none, none, []⟩
    else
      ⟨"unknown", "unknown", false, none, none, none, []⟩

/-! ## Output Parser (`CodeSpecialistAgent._parse_multi_file_output`)

The parser first locates the files section with
`re.search(r'FILES:(.*?)(?:STRUCTURE:|SETUP:|RUN:|$)', output, DOTALL|IGNORECASE)`.
Since the tail of that pattern always matches (the lazy group extends
until a later header or the `$` anchor, which in Python matches at the
end of the string or just before a terminal newline), the search
succeeds exactly when `files:` occurs case-insensitively, and group 1
runs from the end of the first such occurrence to the earliest later
header, or to the end of the string (excluding one terminal newline).

Within the section it then matches
`re.findall(r'---\s*([^\n]+?)\s*---\n(.*?)(?=---|\Z)', section, DOTALL)`.
The backtracking order of that pattern is: the first `\s*` is greedy
(longest first), the lazy `([^\n]+?)` grows from one character, the
second `\s*` is greedy, then the literal `---\n` must follow; the lazy
content group then stops at the first later `---` or at the end of the
section.  `matchHeaderTail` below realises exactly that search order.
-/

/-- Length of the maximal whitespace (`\s*`) run at the head of `l`. -/
def wsRun : List Char → Nat
  | [] => 0
  | c :: l => if isPySpace c then wsRun l + 1 else 0

/-- Length of the maximal `[^\n]` run at the head of `l`. -/
def nonNlRun : List Char → Nat
  | [] => 0
  | c :: l => if c ≠ '\n' then nonNlRun l + 1 else 0

/-- Innermost loop: the second `\s*`, greedy, from `a2` down to `0`,
followed by the literal `---\n` at offset `r + a2` of `l`.  Returns the
offset just after the matched `---\n`. -/
def tryTailWs (l : List Char) (r : Nat) : Nat → Option Nat
  | 0 => if startsWith (l.drop r) "---\n".toList then some (r + 4) else none
  | a2 + 1 =>
    if startsWith (l.drop (r + a2 + 1)) "---\n".toList then some (r + a2 + 5)
    else tryTailWs l r a2

/-- Middle loop: the lazy `([^\n]+?)` of length `g`, growing while
`rem` candidate lengths remain (initially the maximal `[^\n]` run); the
path group is `l[q, q+g)`.  Returns (group1, offset after the header's
`---\n`). -/
def tryPathLen (l : List Char) (q : Nat) (g : Nat) :
    Nat → Option (List Char × Nat)
  | 0 => none
  | rem + 1 =>
    let r := q + g
    match tryTailWs l r (wsRun (l.drop r)) with
    | some e => some ((l.drop q).take g, e)
    | none => tryPathLen l q (g + 1) rem

/-- Outer loop: the first `\s*`, greedy, from `a1` down to `0`, starting
at offset `p0` (just after the opening `---`). -/
def tryHeadWs (l : List Char) (p0 : Nat) : Nat → Option (List Char × Nat)
  | 0 =>
    let q := p0
    tryPathLen l q 1 (nonNlRun (l.drop q))
  | a1 + 1 =>
    let q := p0 + a1 + 1
    match tryPathLen l q 1 (nonNlRun (l.drop q)) with
    | some res => some res
    | none => tryHeadWs l p0 a1

/-- Attempt the full header match of the file pattern at offset `i`
(which must begin with `---`). -/
def tryHeaderAt (l : List Char) (i : Nat) : Option (List Char × Nat) :=
  if startsWith (l.drop i) "---".toList then
    tryHeadWs l (i + 3) (wsRun (l.drop (i + 3)))
  else none

/-- The lazy content group `(.*?)(?=---|\Z)`: smallest end offset
`t ≥ c` such that `---` starts at `t` or `t` is the end of `l`. -/
def contentEnd (l : List Char) (c : Nat) : Nat → Nat
  | 0 => l.length
  | fuel + 1 =>
    if c ≥ l.length then l.length
    else if startsWith (l.drop c) "---".toList then c
    else contentEnd l (c + 1) fuel

/-- Model of the `re.findall` scan over the section: leftmost matches, resuming at
each match end. -/
def findallFiles (l : List Char) : Nat → Nat → List (List Char × List Char)
  | 0, _ => []
  | fuel + 1, i =>
    if i ≥ l.length then []
    else
      match tryHeaderAt l i with
      | some (g1, c) =>
        let t := contentEnd l c (l.length - c)
        (g1, (l.drop c).take (t - c)) :: findallFiles l fuel t
      | none => findallFiles l fuel (i + 1)

/-- All `(path, content)` matches of the file pattern in `l`. -/
def fileMatches (l : List Char) : List (List Char × List Char) :=
  findallFiles l (l.length + 1) 0

/-- Model of dict assignment `files[k] = v`: overwrite in place if the
key exists, else append. -/
def dictInsert (d : List (String × String)) (k v : String) :
    List (String × String) :=
  if d.any (fun p => p.1 = k) then
    d.map (fun p => if p.1 = k then (k, v) else p)
  else d ++ [(k, v)]

/-- The post-processed file entries of the section, in section order:
both the path and the content are stripped, and backslashes in the path
are normalised to forward slashes (source lines 322–330). -/
def sectionEntries (l : List Char) : List (String × String) :=
  (fileMatches l).map (fun m =>
    (String.mk (replaceAll (stripChars m.1) ['\\'] ['/']),
     String.mk (stripChars m.2)))

/-- The fixed main-file preference names (source line 334). -/
def mainNames : List String :=
  ["app.py", "main.py", "index.js", "app.js", "server.js"]

/-- The source's main-file test: `any(name in filepath.lower() ...)` —
substring containment of a preference name in the whole lowered path. -/
def mainNameHit (path : String) : Bool :=
  mainNames.any (fun n => containsSub (lowerChars path.toList) n.toList)

/-- The fold computing `main_file` during the insertion loop
(source lines 333–335): first entry hit wins. -/
def mainFold (entries : List (String × String)) : Option String :=
  entries.foldl (fun acc e =>
    match acc with
    | some m => some m
    | none => if mainNameHit e.1 then some e.1 else none) none

/-- Directory-tree nodes: a Python value that is either the string
`"file"` or a nested dict. -/
inductive FTree where
  | file : FTree
  | dir : List (String × FTree) → FTree
  deriving Repr

/-- The single modelled Python error message: `_build_file_tree` raises
a `TypeError` whenever it has to descend through (or assign into) a node
that is the string `"file"` rather than a dict. -/
def treeCollisionError : String := "TypeError: tree node is a file"

def lookupChild : List (String × FTree) → String → Option FTree
  | [], _ => none
  | (k, t) :: l, key => if k = key then some t else lookupChild l key

def setChild (cs : List (String × FTree)) (k : String) (t : FTree) :
    List (String × FTree) :=
  if cs.any (fun p => p.1 = k) then
    cs.map (fun p => if p.1 = k then (k, t) else p)
  else cs ++ [(k, t)]

/-- One path insertion of `_build_file_tree` (source lines 355–367):
walk the split path; intermediate parts create nested dicts, the final
part is assigned `"file"`.  Descending into an existing `"file"` leaf
models Python's `TypeError` on indexing/assigning into a `str`. -/
def insertPath (cs : List (String × FTree)) :
    List String → Except String (List (String × FTree))
  | [] => .ok cs
  | [last] => .ok (setChild cs last .file)
  | part :: rest =>
    match lookupChild cs part with
    | none =>
      match insertPath [] rest with
      | .ok sub => .ok (setChild cs part (.dir sub))
      | .error e => .error e
    | some (.dir sub) =>
      match insertPath sub rest with
      | .ok sub2 => .ok (setChild cs part (.dir sub2))
      | .error e => .error e
    | some .file => .error treeCollisionError

/-- Source `CodeSpecialistAgent._build_file_tree` (source lines 351–369): the
`for filepath in filepaths` loop, threading the tree through each
insertion and propagating the first raised `TypeError`. -/
def buildFileTreeGo (cs : List (String × FTree)) :
    List String → Except String (List (String × FTree))
  | [] => .ok cs
  | p :: ps =>
    match insertPath cs ((splitSlash p.toList).map String.mk) with
    | .ok cs2 => buildFileTreeGo cs2 ps
    | .error e => .error e

def buildFileTree (paths : List String) :
    Except String (List (String × FTree)) :=
  buildFileTreeGo [] paths

/-- The later section headers recognised by the files-section regex. -/
def sectionHeads : List (List Char) :=
  ["structure:".toList, "setup:".toList, "run:".toList]

/-- Earliest index `j` with `start ≤ j` at which one of the later
section headers begins in the (lowered) text. -/
def indexOfAnyGo (ls : List Char) : Nat → Nat → Option Nat
  | 0, _ => none
  | fuel + 1, j =>
    if j ≥ ls.length then none
    else if sectionHeads.any (fun p => startsWith (ls.drop j) p) then some j
    else indexOfAnyGo ls fuel (j + 1)

def indexOfAnyFrom (ls : List Char) (start : Nat) : Option Nat :=
  indexOfAnyGo ls (ls.length + 1) start

/-- The parser's result triple `{files, structure, main_file}`. -/
structure ParsedOut where
  files : List (String × String)
  tree : List (String × FTree)
  main_file : Option String

/-- The files-section slice of the raw output (group 1 of the
`FILES:` search regex), or `none` when the search fails, i.e. when
`files:` does not occur case-insensitively. -/
def filesSection (output : String) : Option (List Char) :=
  let cs := output.toList
  let ls := lowerChars cs
  match indexOfSub ls "files:".toList with
  | none => none
  | some i =>
    let start := i + 6
    let stop :=
      match indexOfAnyFrom ls start with
      | some j => j
      | none => if cs.getLast? = some '\n' then cs.length - 1 else cs.length
    some ((cs.drop start).take (stop - start))

/-- The post-processed `(path, content)` entries of the files section,
in section order (empty when there is no files section). -/
def entriesOf (output : String) : List (String × String) :=
  match filesSection output with
  | none => []
  | some sect => sectionEntries sect

/--
Source `CodeSpecialistAgent._parse_multi_file_output` (source lines 288–349):
locate the files section, match the `--- path ---` delimited entries,
insert them into the file dict (last write wins), pick the main file,
and build the directory tree.  The `Except` error is the `TypeError`
raised by `_build_file_tree` on a file/directory path collision; on
every other input the function returns normally.
-/
def parseMultiFileOutput (output : String) : Except String ParsedOut :=
  match filesSection output with
  | none => .ok ⟨[], [], none⟩
  | some sect =>
    let entries := sectionEntries sect
    let files := entries.foldl (fun d e => dictInsert d e.1 e.2) []
    let main :=
      match mainFold entries with
      | some m => some m
      | none => (files.head?).map Prod.fst
    match buildFileTree (files.map Prod.fst) with
    | .ok t => .ok ⟨files, t, main⟩
    | .error e => .error e

/-! ## Generation Driver single-file fallback
(`CodeSpecialistAgent._handle_single_file`, source lines 475–507) -/

/-- Length of the maximal `\w` run at the head of `l`. -/
def wordRunLen : List Char → Nat
  | [] => 0
  | c :: l => if isWordChar c then wordRunLen l + 1 else 0

/-- Model of `re.search(r'```(?:\w+)?\n(.*?)\n```', out, DOTALL)`:
leftmost position with a literal triple backtick, the greedy optional
word run, a newline (only the full word run can be followed by one),
then the lazy group up to the first later `"\n```"`.  Returns the
content group as (start, end) offsets. -/
def fenceSearchGo (cs : List Char) : Nat → Nat → Option (Nat × Nat)
  | 0, _ => none
  | fuel + 1, i =>
    if i ≥ cs.length then none
    else if startsWith (cs.drop i) "```".toList then
      let w := wordRunLen (cs.drop (i + 3))
      let j := i + 3 + w
      if (cs.drop j).head? = some '\n' then
        match indexOfSub (cs.drop (j + 1)) "\n```".toList with
        | some k => some (j + 1, j + 1 + k)
        | none => fenceSearchGo cs fuel (i + 1)
      else fenceSearchGo cs fuel (i + 1)
    else fenceSearchGo cs fuel (i + 1)

def fenceSearch (cs : List Char) : Option (Nat × Nat) :=
  fenceSearchGo cs (cs.length + 1) 0

/-- The record shape returned by `generate_code` /
`_handle_single_file`. -/
structure GenResultS where
  success : Bool
  files : List (String × String)
  structureTree : List (String × FTree)
  main_file : Option String
  project_type : String
  language : String
  is_server : Bool
  start_command : Option String
  install_command : Option String
  port : Option Nat
  dependencies : List String
  raw_output : String

/--
Source `CodeSpecialistAgent._handle_single_file`: fenced-block language
detection, first fenced block extraction (whole text when no fence
matches), and a one-file project named `main.<ext>`; always
`is_server = false` and `port = none`.
-/
def handleSingleFile (codeOutput : String) : GenResultS :=
  let cs := codeOutput.toList
  let language :=
    if containsSub cs "```javascript".toList ∨ containsSub cs "```js".toList
    then "javascript"
    else if containsSub cs "```typescript".toList then "typescript"
    else "python"
  let code :=
    match fenceSearch cs with
    | some (a, b) => String.mk ((cs.drop a).take (b - a))
    | none => codeOutput
  let ext :=
    if language = "javascript" then "js"
    else String.mk (language.toList.take 2)
  let filename := "main." ++ ext
  { success := true, files := [(filename, code)],
    structureTree := [(filename, .file)], main_file := some filename,
    project_type := language, language := language, is_server := false,
    start_command :=
      some ((if language = "python" then "python" else "node") ++ " " ++
        filename),
    install_command := none, port := none, dependencies := [],
    raw_output := codeOutput }

/-! ## Iteration Controller
(`MultiAgentOrchestrator._code_specialist_node`, source lines 65–164)

The controller is modelled as a fuel-structured recursion over the
`for iteration in range(1, max_iterations + 1)` loop, parameterised by
the two external collaborators (generator and sandbox), which the
source reaches through `code_specialist.generate_code` and
`sandbox_service.execute_project` / `execute_python`.  The `genTrace`
and `execTrace` fields instrument the run state with the iteration
numbers at which each collaborator is invoked; they are write-only
bookkeeping and do not influence the control flow. -/

/-- The generator collaborator's outcome for one call
(`generate_code`): on an exception the source returns
`{"success": False, "error": str(e), ...}`, so `error` is the caught
error text. -/
structure GenOutcome where
  success : Bool
  error : Option String
  files : List (String × String)
  projectType : String
  rawOutput : String
  deriving Repr, DecidableEq

/-- The sandbox collaborator's outcome for one execution call. -/
structure ExecOutcome where
  success : Bool
  stdout : String
  stderr : String
  serverStarted : Bool
  serverUrl : String
  serverPort : Option Nat
  projectPath : Option String
  deriving Repr, DecidableEq

/-- One entry of `state["execution_results"]` (timestamp omitted). -/
structure IterationRecord where
  iteration : Nat
  success : Bool
  stdout : String
  stderr : String
  deriving Repr, DecidableEq

/-- The modelled fields of the orchestrator's `AgentState` for one run,
plus the two collaborator call traces. -/
structure RunState where
  records : List IterationRecord
  iteration : Nat
  success : Bool
  errorMessage : Option String
  files : List (String × String)
  projectType : Option String
  generatedCode : String
  serverRunning : Bool
  serverUrl : Option String
  serverPort : Option Nat
  projectPath : Option String
  finalOutput : String
  genTrace : List Nat
  execTrace : List Nat
  deriving Repr, DecidableEq

/-- The external collaborators, as functions of the iteration number
(the run's fixed description is part of the closure): `gen i prevErr`
is `generate_code(description, iteration=i, previous_error=prevErr)`;
`execProj i` / `execPy i` are the sandbox calls at iteration `i`. -/
structure Collaborators where
  gen : Nat → Option String → GenOutcome
  execProj : Nat → ExecOutcome
  execPy : Nat → ExecOutcome

def initState : RunState :=
  { records := [], iteration := 1, success := false, errorMessage := none,
    files := [], projectType := none, generatedCode := "",
    serverRunning := false, serverUrl := none, serverPort := none,
    projectPath := none, finalOutput := "", genTrace := [], execTrace := [] }

/-- Source `MultiAgentOrchestrator._generate_code` (source lines 195–252):
computes `previous_error` from the last execution record when
`iteration > 1`, calls the generator, and on success copies the
generated project into the state. -/
def genStep (o : Collaborators) (i : Nat) (st : RunState) :
    GenOutcome × RunState :=
  let prevErr :=
    if 1 < i ∧ st.records ≠ [] then
      some ((st.records.getLast?.map IterationRecord.stderr).getD "")
    else none
  let g := o.gen i prevErr
  let st := { st with genTrace := st.genTrace ++ [i] }
  if g.success then
    (g, { st with files := g.files, projectType := some g.projectType,
                  generatedCode := g.rawOutput })
  else (g, st)

/-- Source `MultiAgentOrchestrator._execute_code` (source lines 254–305):
multi-file sandbox execution when `files` is non-empty, legacy
single-snippet execution when only `generated_code` is present, and the
constant "No code to execute" failure otherwise. -/
def execStep (o : Collaborators) (i : Nat) (st : RunState) :
    ExecOutcome × RunState :=
  if st.files ≠ [] then
    let e := o.execProj i
    (e, { st with
      execTrace := st.execTrace ++ [i],
      serverRunning := if e.serverStarted then true else st.serverRunning,
      serverUrl := if e.serverStarted then some e.serverUrl else st.serverUrl,
      serverPort := if e.serverStarted then e.serverPort else st.serverPort,
      projectPath :=
        if (e.projectPath.getD "") ≠ "" then e.projectPath
        else st.projectPath })
  else if st.generatedCode ≠ "" then
    (o.execPy i, { st with execTrace := st.execTrace ++ [i] })
  else
    (⟨false, "", "No code provided", false, "", none, none⟩, st)

/-- The controller's iteration loop: one call per remaining pass, with
`i` the current value of the loop counter.  Generation failure breaks
with the generation error recorded
(`gen_result.get("error", "Code generation failed")`); otherwise an
`IterationRecord` is appended unconditionally and the loop stops on
execution success. -/
def loopGo (o : Collaborators) : Nat → Nat → RunState → RunState
  | 0, _, st => st
  | fuel + 1, i, st =>
    let st := { st with iteration := i }
    let gs := genStep o i st
    let g := gs.1
    let st := gs.2
    if g.success = false then
      { st with errorMessage := some (g.error.getD "Code generation failed") }
    else
      let es := execStep o i st
      let e := es.1
      let st := es.2
      let st := { st with
        records := st.records ++ [⟨i, e.success, e.stdout, e.stderr⟩] }
      if e.success then { st with success := true }
      else loopGo o fuel (i + 1) st

/--
Source `MultiAgentOrchestrator._code_specialist_node` for a task routed to the
code specialist: run the bounded loop starting at iteration 1, then
compose the final output message.  Matches the source truthiness tests:
empty strings for `server_url`, `project_path` and `error_message` are
falsy and suppress their suffix.  (For `maxIterations = 0` the source
raises `NameError` on the unbound loop variable; the model is only used
with `maxIterations ≥ 1`.)
-/
def codeSpecialistNode (o : Collaborators) (maxIterations : Nat) : RunState :=
  let st := loopGo o maxIterations 1 initState
  let out :=
    if st.success then
      let base := "✅ Successfully created " ++ (st.projectType.getD "project")
        ++ " project with " ++ toString st.files.length ++ " files"
      let base :=
        if (st.serverUrl.getD "") ≠ "" then
          base ++ "\n\n🌐 Live Preview: " ++ (st.serverUrl.getD "")
        else base
      if (st.projectPath.getD "") ≠ "" then
        base ++ "\n📁 Project saved to: " ++ (st.projectPath.getD "")
      else base
    else
      let base := "❌ Failed after " ++ toString st.iteration ++ " iterations"
      if (st.errorMessage.getD "") ≠ "" then
        base ++ "\nError: " ++ (st.errorMessage.getD "")
      else base
  { st with finalOutput := out }

/-! ## Execution Driver
(`EnhancedSandboxService.execute_project`, sandbox_services.py lines
28–125)

The E2B sandbox collaborator is modelled as an oracle of the individual
sandbox calls; `Except.error` models a Python exception escaping
`execute_project`.  The body's `try/except` converts every collaborator
exception into a structured dict, but the `finally` block then reads
the local `is_server`, which is only assigned after the install step
(line 89); when the body ended before that line while the sandbox
object exists, the `finally` itself raises `UnboundLocalError`, which
replaces the pending structured return. -/

/-- The modelled error text for the `finally` block's read of the
unassigned `is_server` local. -/
def unboundLocalIsServer : String :=
  "UnboundLocalError: is_server referenced before assignment"

/-- The `ExecutionOutcome`-shaped dicts built by `execute_project`. -/
structure SbResult where
  success : Bool
  error : Option String
  stdout : String
  stderr : String
  exit_code : Int
  server_started : Option Bool
  project_path : Option String
  deriving Repr, DecidableEq

/-- The generic structured failure dict built from a caught exception
text `e`. -/
def sbFail (e : String) : SbResult :=
  ⟨false, some e, "", e, 1, none, none⟩

/-- The E2B collaborator oracle: `create` is `Sandbox.create()`;
`fileOp i` is the `run_code` sequence creating the `i`-th file;
`install cmd` is the install `run_code` (`.ok (some msg)` models a
result whose `error` attribute is set, `.error e` a raised exception);
`savedPath` is the local workspace path produced by
`_save_to_workspace` (which catches its own errors and is total);
`server` and `script` are the dicts returned by the total helpers
`_start_server` and `_execute_script`. -/
structure E2BOracle where
  create : Except String Unit
  fileOp : Nat → Except String Unit
  install : String → Except String (Option String)
  savedPath : String
  server : String → Nat → SbResult
  script : String → SbResult

/-- First exception among the per-file sandbox operations, in file
order. -/
def firstFileErrorGo (o : E2BOracle) : Nat → Nat → Option String
  | _, 0 => none
  | i, c + 1 =>
    match o.fileOp i with
    | .error e => some e
    | .ok _ => firstFileErrorGo o (i + 1) c

/--
Source `EnhancedSandboxService.execute_project`.  Paths that leave the body
before line 89 while the sandbox exists end in the `finally` block's
`UnboundLocalError` (modelled as `.error unboundLocalIsServer`),
replacing the structured dict the body had produced.
-/
def executeProject (o : E2BOracle) (apiKey : Bool)
    (files : List (String × String)) (installCommand startCommand : Option String)
    (port : Option Nat) : Except String SbResult :=
  if apiKey = false then
    .ok ⟨false, some "E2B_API_KEY not set", "", "E2B_API_KEY not configured",
      1, none, none⟩
  else
    match o.create with
    | .error e => .ok (sbFail e)
    | .ok _ =>
      match firstFileErrorGo o 0 files.length with
      | some _ => .error unboundLocalIsServer
      | none =>
        let afterInstall : Except String SbResult :=
          let isServer := port.isSome ∧ startCommand.isSome
          if isServer then
            .ok (o.server (startCommand.getD "") (port.getD 0))
          else
            match startCommand with
            | some c =>
              let r := o.script c
              .ok { r with project_path := some o.savedPath }
            | none =>
              match files.head? with
              | some kv =>
                let r := o.script ("python " ++ kv.1)
                .ok { r with project_path := some o.savedPath }
              | none => .ok (sbFail "IndexError: list index out of range")
        match installCommand with
        | some cmd =>
          match o.install cmd with
          | .error _ => .error unboundLocalIsServer
          | .ok (some _) => .error unboundLocalIsServer
          | .ok none => afterInstall
        | none => afterInstall

/-! ## Specification-side definition for the main-file rule (claim C7)

The specification words the Output Parser's entry choice as "the
first-inserted file whose path's *filename* (case-insensitive) matches a
fixed preference list".  `specMainChoice` renders exactly those words,
to be compared with the source's substring-based rule. -/

/-- The filename component of a path: the part after the last `/`. -/
def filenameOf (path : String) : String :=
  String.mk (((splitSlash path.toList).getLastD []))

/-- Following the specification's words (§4.2 step 4): the first entry
whose lowercased filename equals one of the preference names; else the
first entry; `none` when empty. -/
def specMainChoice (entries : List String) : Option String :=
  match entries.find? (fun p =>
    mainNames.contains (String.mk (lowerChars (filenameOf p).toList))) with
  | some p => some p
  | none => entries.head?

/-! ## Concrete instances used by the witnesses and counterexamples -/

/-- A generator collaborator that always succeeds with a fixed
single-file python project. -/
def genAlwaysOk : Nat → Option String → GenOutcome :=
  fun _ _ => ⟨true, none, [("main.py", "print(1)")], "python", "raw"⟩

/-- An execution collaborator that fails on every call with stderr
`"boom"`. -/
def execAlwaysBoom : Nat → ExecOutcome :=
  fun _ => ⟨false, "", "boom", false, "", none, none⟩

/-- Collaborators: generation always succeeds, execution always fails. -/
def collabExhaust : Collaborators :=
  ⟨genAlwaysOk, execAlwaysBoom, execAlwaysBoom⟩

/-- Collaborators whose generator raises (`"LLM down"`) on every call. -/
def collabGenDown : Collaborators :=
  ⟨fun _ _ => ⟨false, some "LLM down", [], "", ""⟩, execAlwaysBoom,
    execAlwaysBoom⟩

/-- The specification's classifier-precedence example: a `package.json`
mentioning react together with a flask `app.py`. -/
def reactFlaskFiles : List (String × String) :=
  [("package.json", "dependencies: react 18 react-dom 18"),
   ("app.py", "from flask import Flask")]

/-- A mapping whose first key is not a python file but which contains
one, exercising the classifier's python-entry fallback. -/
def dataTxtFiles : List (String × String) :=
  [("data.txt", "some data"), ("script.py", "print(40 + 2)")]

/-- Raw generator output whose second path contains `app.py` as a
substring of its filename without being named `app.py`. -/
def rawMyapp : String :=
  "FILES:\n--- notes.txt ---\nhello\n--- myapp.py ---\nprint(1)\n"

/-- The parser's result on `rawMyapp`. -/
def parsedMyapp : ParsedOut :=
  ⟨[("notes.txt", "hello"), ("myapp.py", "print(1)")],
   [("notes.txt", .file), ("myapp.py", .file)], some "myapp.py"⟩

/-- Raw generator output whose paths collide as file and directory
(`a` then `a/b`). -/
def rawCollision : String :=
  "FILES:\n--- a ---\nx\n--- a/b ---\ny\n"

/-- An E2B oracle where sandbox creation succeeds but the dependency
install step reports an error. -/
def installFailOracle : E2BOracle :=
  ⟨.ok (), fun _ => .ok (), fun _ => .ok (some "pip install exited with status 1"),
   "/workspace/my-project", fun _ _ => sbFail "unused", fun _ => sbFail "unused"⟩

/-- An E2B oracle where sandbox creation itself raises. -/
def createFailOracle : E2BOracle :=
  ⟨.error "E2B unreachable", fun _ => .ok (), fun _ => .ok none,
   "/workspace/my-project", fun _ _ => sbFail "unused", fun _ => sbFail "unused"⟩

/-! ## Helper lemmas -/

theorem genStep_snd_records (o : Collaborators) (i : Nat) (st : RunState) :
    (genStep o i st).2.records = st.records := by
  unfold genStep; dsimp only; split <;> split <;> rfl

theorem genStep_snd_errorMessage (o : Collaborators) (i : Nat) (st : RunState) :
    (genStep o i st).2.errorMessage = st.errorMessage := by
  unfold genStep; dsimp only; split <;> split <;> rfl

theorem genStep_snd_success (o : Collaborators) (i : Nat) (st : RunState) :
    (genStep o i st).2.success = st.success := by
  unfold genStep; dsimp only; split <;> split <;> rfl

theorem genStep_snd_iteration (o : Collaborators) (i : Nat) (st : RunState) :
    (genStep o i st).2.iteration = st.iteration := by
  unfold genStep; dsimp only; split <;> split <;> rfl

theorem genStep_snd_genTrace (o : Collaborators) (i : Nat) (st : RunState) :
    (genStep o i st).2.genTrace = st.genTrace ++ [i] := by
  unfold genStep; dsimp only; split <;> split <;> rfl

theorem genStep_snd_execTrace (o : Collaborators) (i : Nat) (st : RunState) :
    (genStep o i st).2.execTrace = st.execTrace := by
  unfold genStep; dsimp only; split <;> split <;> rfl

theorem genStep_fst_success (o : Collaborators) (i : Nat) (st : RunState)
    (hg : ∀ j e, (o.gen j e).success = true) :
    (genStep o i st).1.success = true := by
  unfold genStep; dsimp only; split <;> split <;> simp [hg]

theorem execStep_snd_records (o : Collaborators) (i : Nat) (st : RunState) :
    (execStep o i st).2.records = st.records := by
  unfold execStep; dsimp only; split <;> [rfl; (split <;> rfl)]

theorem execStep_snd_errorMessage (o : Collaborators) (i : Nat) (st : RunState) :
    (execStep o i st).2.errorMessage = st.errorMessage := by
  unfold execStep; dsimp only; split <;> [rfl; (split <;> rfl)]

theorem execStep_snd_success (o : Collaborators) (i : Nat) (st : RunState) :
    (execStep o i st).2.success = st.success := by
  unfold execStep; dsimp only; split <;> [rfl; (split <;> rfl)]

theorem execStep_snd_iteration (o : Collaborators) (i : Nat) (st : RunState) :
    (execStep o i st).2.iteration = st.iteration := by
  unfold execStep; dsimp only; split <;> [rfl; (split <;> rfl)]

theorem execStep_snd_genTrace (o : Collaborators) (i : Nat) (st : RunState) :
    (execStep o i st).2.genTrace = st.genTrace := by
  unfold execStep; dsimp only; split <;> [rfl; (split <;> rfl)]

theorem execStep_fst_fail (o : Collaborators) (i : Nat) (st : RunState)
    (hx : ∀ j, (o.execProj j).success = false)
    (hp : ∀ j, (o.execPy j).success = false) :
    (execStep o i st).1.success = false := by
  unfold execStep; dsimp only; split <;> [skip; split] <;> simp [hx, hp]

/-- The loop calls the generator once per pass at consecutive iteration
numbers starting at `i`, and performs at most `fuel` passes. -/
theorem loopGo_genTrace (o : Collaborators) :
    ∀ (fuel i : Nat) (st : RunState), ∃ k, k ≤ fuel ∧ (1 ≤ fuel → 1 ≤ k) ∧
      (loopGo o fuel i st).genTrace = st.genTrace ++ List.range' i k := by
  intro fuel
  induction fuel with
  | zero =>
    intro i st
    exact ⟨0, le_rfl, by omega, by simp [loopGo]⟩
  | succ n ih =>
    intro i st
    simp only [loopGo]
    split
    · exact ⟨1, by omega, by omega, by
        simp [genStep_snd_genTrace, List.range'_one]⟩
    · split
      · exact ⟨1, by omega, by omega, by
          simp [execStep_snd_genTrace, genStep_snd_genTrace, List.range'_one]⟩
      · obtain ⟨k, hk, _, htr⟩ := ih (i + 1)
          { (execStep o i (genStep o i { st with iteration := i }).2).2 with
            records := (execStep o i (genStep o i { st with iteration := i }).2).2.records ++
              [⟨i, (execStep o i (genStep o i { st with iteration := i }).2).1.success,
                (execStep o i (genStep o i { st with iteration := i }).2).1.stdout,
                (execStep o i (genStep o i { st with iteration := i }).2).1.stderr⟩] }
        refine ⟨k + 1, by omega, by omega, ?_⟩
        rw [htr]
        simp [execStep_snd_genTrace, genStep_snd_genTrace, List.range'_succ]

/-- The loop stops as soon as a pass succeeds: every record except
possibly the last is a failure. -/
theorem loopGo_dropLast_fail (o : Collaborators) :
    ∀ (fuel i : Nat) (st : RunState),
      (∀ r ∈ st.records, r.success = false) →
      ∀ r ∈ (loopGo o fuel i st).records.dropLast, r.success = false := by
  intro fuel
  induction fuel with
  | zero =>
    intro i st h r hr
    exact h r (List.dropLast_subset _ hr)
  | succ n ih =>
    intro i st h
    simp only [loopGo]
    split
    · intro r hr
      refine h r (List.dropLast_subset _ ?_)
      simpa [genStep_snd_records] using hr
    · split
      · intro r hr
        refine h r ?_
        simpa [execStep_snd_records, genStep_snd_records,
          List.dropLast_concat] using hr
      · refine ih (i + 1) _ ?_
        intro r hr
        simp only [execStep_snd_records, genStep_snd_records] at hr
        rcases List.mem_append.mp hr with hmem | hmem
        · exact h r hmem
        · simp only [List.mem_singleton] at hmem
          subst hmem
          simp_all

/-- When generation always succeeds and execution always fails, the loop
consumes its entire fuel: one failed record per pass, no error message,
no success, final counter value `i + fuel - 1`. -/
theorem loopGo_exhaust (o : Collaborators)
    (hg : ∀ j e, (o.gen j e).success = true)
    (hx : ∀ j, (o.execProj j).success = false)
    (hp : ∀ j, (o.execPy j).success = false) :
    ∀ (fuel i : Nat) (st : RunState),
      (loopGo o fuel i st).success = st.success ∧
      (loopGo o fuel i st).errorMessage = st.errorMessage ∧
      (loopGo o fuel i st).records.length = st.records.length + fuel ∧
      (loopGo o fuel i st).records.map IterationRecord.iteration =
        st.records.map IterationRecord.iteration ++ List.range' i fuel ∧
      (loopGo o fuel i st).iteration =
        (if fuel = 0 then st.iteration else i + (fuel - 1)) ∧
      (loopGo o fuel i st).genTrace = st.genTrace ++ List.range' i fuel := by
  intro fuel
  induction fuel with
  | zero =>
    intro i st
    simp [loopGo]
  | succ n ih =>
    intro i st
    simp only [loopGo]
    rw [if_neg (by simp [genStep_fst_success o i _ hg])]
    rw [if_neg (by simp [execStep_fst_fail _ _ _ hx hp])]
    obtain ⟨hs, he, hlen, hmap, hit, htr⟩ := ih (i + 1)
      { (execStep o i (genStep o i { st with iteration := i }).2).2 with
        records := (execStep o i (genStep o i { st with iteration := i }).2).2.records ++
          [⟨i, (execStep o i (genStep o i { st with iteration := i }).2).1.success,
            (execStep o i (genStep o i { st with iteration := i }).2).1.stdout,
            (execStep o i (genStep o i { st with iteration := i }).2).1.stderr⟩] }
    refine ⟨?_, ?_, ?_, ?_, ?_, ?_⟩
    · rw [hs]; simp [execStep_snd_success, genStep_snd_success]
    · rw [he]; simp [execStep_snd_errorMessage, genStep_snd_errorMessage]
    · rw [hlen]; simp [execStep_snd_records, genStep_snd_records]; omega
    · rw [hmap]
      simp [execStep_snd_records, genStep_snd_records, List.range'_succ]
    · rw [hit]
      rcases Nat.eq_zero_or_pos n with h0 | hpos
      · subst h0
        simp [execStep_snd_iteration, genStep_snd_iteration]
      · rw [if_neg (by omega), if_neg (by omega)]
        omega
    · rw [htr]
      simp [execStep_snd_genTrace, genStep_snd_genTrace, List.range'_succ]

theorem foldl_mainStep_some (l : List (String × String)) (m : String) :
    l.foldl (fun acc e =>
      match acc with
      | some m => some m
      | none => if mainNameHit e.1 then some e.1 else none) (some m) = some m := by
  induction l with
  | nil => rfl
  | cons e es ih => simpa using ih

/-- The source's first-hit-wins fold equals a `find?` over the entries. -/
theorem mainFold_eq_find (entries : List (String × String)) :
    mainFold entries =
      (entries.find? (fun e => mainNameHit e.1)).map Prod.fst := by
  induction entries with
  | nil => rfl
  | cons e es ih =>
    unfold mainFold at *
    rcases h : mainNameHit e.1 with _ | _
    · simpa [List.foldl_cons, List.find?, h] using ih
    · simp [List.foldl_cons, List.find?, h, foldl_mainStep_some]

theorem dictInsert_head_key (d : List (String × String)) (k v : String) :
    ((dictInsert d k v).head?).map Prod.fst =
      if d.isEmpty then some k else (d.head?).map Prod.fst := by
  cases d with
  | nil => simp [dictInsert]
  | cons a l =>
    unfold dictInsert
    split
    · rcases h : decide (a.1 = k) with _ | _ <;> simp_all
    · simp

theorem dictInsert_ne_nil (d : List (String × String)) (k v : String) :
    dictInsert d k v ≠ [] := by
  unfold dictInsert
  split
  · cases d with
    | nil => simp_all
    | cons a l => simp
  · simp

theorem filesFold_head_key :
    ∀ (entries d : List (String × String)), d ≠ [] →
      ((entries.foldl (fun d e => dictInsert d e.1 e.2) d).head?).map Prod.fst =
        (d.head?).map Prod.fst := by
  intro entries
  induction entries with
  | nil => intro d h; rfl
  | cons e es ih =>
    intro d h
    rw [List.foldl_cons, ih _ (dictInsert_ne_nil d e.1 e.2),
      dictInsert_head_key]
    simp [h]

/-- The first key of the insertion-built file dict is the first entry's
path. -/
theorem filesFold_nil_head_key (entries : List (String × String)) :
    ((entries.foldl (fun d e => dictInsert d e.1 e.2) []).head?).map Prod.fst =
      (entries.head?).map Prod.fst := by
  cases entries with
  | nil => rfl
  | cons e es =>
    rw [List.foldl_cons]
    have : dictInsert [] e.1 e.2 = [(e.1, e.2)] := rfl
    rw [this, filesFold_head_key es [(e.1, e.2)] (by simp)]
    rfl

theorem indexOfSub_eq_none :
    ∀ (l pat : List Char), containsSub l pat = false →
      indexOfSub l pat = none := by
  intro l
  induction l with
  | nil =>
    intro pat h
    unfold containsSub at h
    unfold indexOfSub
    simp_all
  | cons c rest ih =>
    intro pat h
    unfold containsSub at h
    simp only [Bool.or_eq_false_iff] at h
    unfold indexOfSub
    rw [if_neg (by simp [h.1]), ih pat h.2]
    rfl

/-- Every error raised by a path insertion is the file/directory
collision `TypeError`. -/
theorem insertPath_error_eq :
    ∀ (parts : List String) (cs : List (String × FTree)) (m : String),
      insertPath cs parts = .error m → m = treeCollisionError := by
  intro parts
  induction parts with
  | nil =>
    intro cs m h
    simp [insertPath] at h
  | cons p rest ih =>
    intro cs m h
    cases rest with
    | nil => simp [insertPath] at h
    | cons q rest2 =>
      unfold insertPath at h
      rcases hl : lookupChild cs p with _ | f
      · rw [hl] at h
        rcases hi : insertPath [] (q :: rest2) with e | sub
        · rw [hi] at h
          cases h
          exact (ih [] m hi).symm ▸ rfl
        · rw [hi] at h
          cases h
      · cases f with
        | file =>
          rw [hl] at h
          cases h
          rfl
        | dir sub =>
          rw [hl] at h
          dsimp only at h
          rcases hi : insertPath sub (q :: rest2) with e | sub2
          · rw [hi] at h
            cases h
            exact (ih sub m hi).symm ▸ rfl
          · rw [hi] at h
            cases h

theorem buildFileTreeGo_error :
    ∀ (paths : List String) (cs : List (String × FTree)) (m : String),
      buildFileTreeGo cs paths = .error m → m = treeCollisionError := by
  intro paths
  induction paths with
  | nil => intro cs m h; simp [buildFileTreeGo] at h
  | cons p ps ih =>
    intro cs m h
    unfold buildFileTreeGo at h
    rcases hi : insertPath cs ((splitSlash p.toList).map String.mk) with e | cs2
    · rw [hi] at h
      cases h
      exact insertPath_error_eq _ cs m hi
    · rw [hi] at h
      exact ih cs2 m h

/-! ## Claim theorems -/

/-- C1: for a coding run with `max_iterations = 3` whose generator always
succeeds and whose execution collaborator fails on every call, the
Iteration Controller appends exactly 3 IterationRecords (at iterations
1, 2, 3), ends in the terminal EXHAUSTED failure state (no success, no
generation error, failure message), and invokes the Generation Driver
exactly at iterations 1, 2, 3 — never a 4th time; in general, for every
collaborator pair and bound `m`, the generation calls are the
consecutive iterations `1, …, k` with `k ≤ m` (the counter starts at 1
and increments by exactly 1 per pass), and every pass before the last
recorded one was a failure (the loop runs only while success has not
been achieved). -/
theorem controller_iteration_bound (o : Collaborators)
    (hg : ∀ j e, (o.gen j e).success = true)
    (hx : ∀ j, (o.execProj j).success = false)
    (hp : ∀ j, (o.execPy j).success = false) :
    (codeSpecialistNode o 3).records.length = 3 ∧
    (codeSpecialistNode o 3).records.map IterationRecord.iteration = [1, 2, 3] ∧
    (codeSpecialistNode o 3).success = false ∧
    (codeSpecialistNode o 3).errorMessage = none ∧
    (codeSpecialistNode o 3).genTrace = [1, 2, 3] ∧
    (codeSpecialistNode o 3).finalOutput = "❌ Failed after 3 iterations" ∧
    (∀ (o2 : Collaborators) (m : Nat), ∃ k, k ≤ m ∧ (1 ≤ m → 1 ≤ k) ∧
      (codeSpecialistNode o2 m).genTrace = List.range' 1 k ∧
      ∀ rec ∈ (codeSpecialistNode o2 m).records.dropLast,
        rec.success = false) := by
  obtain ⟨hs, he, hlen, hmap, hit, htr⟩ := loopGo_exhaust o hg hx hp 3 1 initState
  refine ⟨?_, ?_, ?_, ?_, ?_, ?_, ?_⟩
  · simpa [codeSpecialistNode, initState] using hlen
  · simpa [codeSpecialistNode, initState] using hmap
  · simpa [codeSpecialistNode, initState] using hs
  · simpa [codeSpecialistNode, initState] using he
  · simpa [codeSpecialistNode, initState] using htr
  · have hs2 : (loopGo o 3 1 initState).success = false := by rw [hs]; rfl
    have he2 : (loopGo o 3 1 initState).errorMessage = none := by rw [he]; rfl
    have hit2 : (loopGo o 3 1 initState).iteration = 3 := by rw [hit]; rfl
    simp [codeSpecialistNode, hs2, he2, hit2] <;> rfl
  · intro o2 m
    obtain ⟨k, hk, h1, htr2⟩ := loopGo_genTrace o2 m 1 initState
    refine ⟨k, hk, h1, by simpa [codeSpecialistNode, initState] using htr2, ?_⟩
    intro rec hrec
    refine loopGo_dropLast_fail o2 m 1 initState (by simp [initState]) rec ?_
    simpa [codeSpecialistNode] using hrec

/-- Witness for C1 at the concrete always-failing collaborators. -/
theorem controller_iteration_bound_witness :
    (codeSpecialistNode collabExhaust 3).records.length = 3 ∧
    (codeSpecialistNode collabExhaust 3).genTrace = [1, 2, 3] :=
  ⟨(controller_iteration_bound collabExhaust (fun _ _ => rfl) (fun _ => rfl)
      (fun _ => rfl)).1,
   (controller_iteration_bound collabExhaust (fun _ _ => rfl) (fun _ => rfl)
      (fun _ => rfl)).2.2.2.2.1⟩

/-- C2: if the generator collaborator fails on iteration 1 with error
text `msg`, the Controller aborts the whole run at once: no
IterationRecord, no execution-collaborator call, exactly one generation
call, terminal failure with `error_message = msg`, and the loop counter
stays at 1. -/
theorem generation_failure_short_circuit (o : Collaborators) (m : Nat)
    (msg : String) (hm : 1 ≤ m)
    (hfail : (o.gen 1 none).success = false)
    (herr : (o.gen 1 none).error = some msg) :
    (codeSpecialistNode o m).records = [] ∧
    (codeSpecialistNode o m).execTrace = [] ∧
    (codeSpecialistNode o m).genTrace = [1] ∧
    (codeSpecialistNode o m).success = false ∧
    (codeSpecialistNode o m).errorMessage = some msg ∧
    (codeSpecialistNode o m).iteration = 1 := by
  obtain ⟨n, rfl⟩ : ∃ n, m = n + 1 := ⟨m - 1, by omega⟩
  refine ⟨?_, ?_, ?_, ?_, ?_, ?_⟩ <;>
    simp [codeSpecialistNode, loopGo, genStep, initState, hfail, herr]

/-- Witness for C2 at the concrete failing generator. -/
theorem generation_failure_short_circuit_witness :
    (codeSpecialistNode collabGenDown 5).records = [] ∧
    (codeSpecialistNode collabGenDown 5).execTrace = [] ∧
    (codeSpecialistNode collabGenDown 5).genTrace = [1] ∧
    (codeSpecialistNode collabGenDown 5).success = false ∧
    (codeSpecialistNode collabGenDown 5).errorMessage = some "LLM down" ∧
    (codeSpecialistNode collabGenDown 5).iteration = 1 :=
  generation_failure_short_circuit collabGenDown 5 "LLM down" (by omega) rfl rfl

/-- C3 counterexample: a run that exhausts 3 iterations whose execution
stderr was always `"boom"` ends with the final message exactly
`"❌ Failed after 3 iterations"`, which does not contain the last
recorded error text — refuting the claim that the EXHAUSTED message
always includes the last stderr. -/
theorem exhausted_message_counterexample :
    (codeSpecialistNode collabExhaust 3).success = false ∧
    (codeSpecialistNode collabExhaust 3).records.map IterationRecord.stderr =
      ["boom", "boom", "boom"] ∧
    (codeSpecialistNode collabExhaust 3).finalOutput =
      "❌ Failed after 3 iterations" ∧
    containsSub (codeSpecialistNode collabExhaust 3).finalOutput.toList
      "boom".toList = false := by
  refine ⟨rfl, rfl, rfl, by decide⟩

/-- C3 (amended): for every run that ends EXHAUSTED (execution failed on
all `m ≥ 1` passes), the final message is exactly the synthesized
`"❌ Failed after N iterations"` text; no stderr is appended, because
the error suffix is only added when a generation failure set the run's
`error_message`, which remains `none` here. -/
theorem exhausted_message_amended (o : Collaborators) (m : Nat) (hm : 1 ≤ m)
    (hg : ∀ j e, (o.gen j e).success = true)
    (hx : ∀ j, (o.execProj j).success = false)
    (hp : ∀ j, (o.execPy j).success = false) :
    (codeSpecialistNode o m).finalOutput =
      "❌ Failed after " ++ toString m ++ " iterations" ∧
    (codeSpecialistNode o m).errorMessage = none := by
  obtain ⟨hs, he, _, _, hit, _⟩ := loopGo_exhaust o hg hx hp m 1 initState
  have hs2 : (loopGo o m 1 initState).success = false := by rw [hs]; rfl
  have he2 : (loopGo o m 1 initState).errorMessage = none := by rw [he]; rfl
  have hit2 : (loopGo o m 1 initState).iteration = m := by
    rw [hit, if_neg (by omega)]; omega
  constructor
  · simp [codeSpecialistNode, hs2, he2, hit2]
  · simpa [codeSpecialistNode] using he2

/-- Witness for the amended C3 at the concrete collaborators. -/
theorem exhausted_message_amended_witness :
    (codeSpecialistNode collabExhaust 3).finalOutput =
      "❌ Failed after " ++ toString 3 ++ " iterations" ∧
    (codeSpecialistNode collabExhaust 3).errorMessage = none :=
  exhausted_message_amended collabExhaust 3 (by omega) (fun _ _ => rfl)
    (fun _ => rfl) (fun _ => rfl)

/-- C4 counterexample: the slug derivation on
`"Create a React Todo App"` yields `"react-todopp"`, not the claimed
`"react-todo"` (the substring replacement of the stop word `" a"`
deletes the space and the leading `a` of `app`, gluing `pp` onto
`todo`). -/
theorem project_name_counterexample :
    extractProjectName "Create a React Todo App" = "react-todopp" ∧
    extractProjectName "Create a React Todo App" ≠ "react-todo" := by
  constructor <;> decide

/-- C4 (amended): the derivation removes stop words by raw substring
replacement (space-delimited patterns applied sequentially), which can
merge adjacent words; `"Create a React Todo App"` derives
`"react-todopp"` (and `"build a flask API"` derives `"flaskpi"`), the
result is always capped at 30 characters, and the default is
`"my-project"` when no word characters remain. -/
theorem project_name_amended :
    (∀ msg : String, (extractProjectName msg).length ≤ 30) ∧
    extractProjectName "Create a React Todo App" = "react-todopp" ∧
    extractProjectName "build a flask API" = "flaskpi" ∧
    extractProjectName "" = "my-project" := by
  refine ⟨fun msg => ?_, by decide, by decide, by decide⟩
  simp only [extractProjectName]
  split
  · simp [String.length]
  · decide

/-- C5: the Project Classifier is a pure total function with
manifest-rule precedence — whenever the mapping has a `package.json`
whose text contains `react` case-insensitively (even alongside an
`app.py` containing `flask`), the result is project_type `"react"` with
`is_server = true` and port 5555, and classifying twice yields
identical values. -/
theorem classifier_react_precedence (files : List (String × String))
    (pj ap : String)
    (hpj : lookupStr files "package.json" = some pj)
    (hreact : contentHas pj "react" = true)
    (_hap : lookupStr files "app.py" = some ap)
    (_hflask : contentHas ap "flask" = true) :
    (detectProjectConfig files).project_type = "react" ∧
    (detectProjectConfig files).is_server = true ∧
    (detectProjectConfig files).port = some 5555 ∧
    detectProjectConfig files = detectProjectConfig files := by
  refine ⟨?_, ?_, ?_, rfl⟩ <;> simp [detectProjectConfig, hpj, hreact]

/-- Witness for C5 at the specification's example mapping. -/
theorem classifier_react_precedence_witness :
    (detectProjectConfig reactFlaskFiles).project_type = "react" ∧
    (detectProjectConfig reactFlaskFiles).is_server = true ∧
    (detectProjectConfig reactFlaskFiles).port = some 5555 ∧
    detectProjectConfig reactFlaskFiles = detectProjectConfig reactFlaskFiles :=
  classifier_react_precedence reactFlaskFiles
    "dependencies: react 18 react-dom 18" "from flask import Flask"
    (by decide) (by decide) (by decide) (by decide)

/-- C6 counterexample: on the mapping `{data.txt, script.py}` (no
package.json, no flask/fastapi content) the python rule fires but the
entry fallback `list(filenames)[0]` picks `data.txt`, which is not a
python file — refuting the claim that the fallback entry is the first
python file. -/
theorem python_entry_counterexample :
    (detectProjectConfig dataTxtFiles).start_command = some "python data.txt" ∧
    endsWithStr "data.txt" ".py" = false := by
  constructor <;> decide

/-- C6 (amended): under the python rule the classifier returns
project_type `"python"`, no server, no port, no install command, and
`start_command = "python <entry>"` where the entry is a file literally
named `main.py` or `app.py` when one exists, and otherwise the first
filename of the mapping (in the modelled set-iteration order), which
need not be a python file. -/
theorem python_entry_amended (files : List (String × String))
    (hpkg : lookupStr files "package.json" = none)
    (hfl : files.any (fun p => contentHas p.2 "flask") = false)
    (hfa : files.any (fun p => contentHas p.2 "fastapi") = false)
    (hpy : (keysOf files).any (fun f => endsWithStr f ".py") = true) :
    (detectProjectConfig files).project_type = "python" ∧
    (detectProjectConfig files).is_server = false ∧
    (detectProjectConfig files).port = none ∧
    (detectProjectConfig files).install_command = none ∧
    ∃ e, (detectProjectConfig files).start_command = some ("python " ++ e) ∧
      e ∈ keysOf files ∧
      (e = "main.py" ∨ e = "app.py" ∨
        ("main.py" ∉ keysOf files ∧ "app.py" ∉ keysOf files ∧
          (keysOf files).head? = some e)) := by
  have hred : detectProjectConfig files =
      ⟨"python", "python", false,
        some ("python " ++ (((keysOf files).find? (fun f =>
          f = "main.py" ∨ f = "app.py")).getD (((keysOf files).head?).getD ""))),
        none, none, []⟩ := by
    simp [detectProjectConfig, hpkg, hfl, hfa, hpy]
  rw [hred]
  refine ⟨rfl, rfl, rfl, rfl, ?_⟩
  cases hfind : (keysOf files).find? (fun f => f = "main.py" ∨ f = "app.py") with
  | some e =>
    refine ⟨e, by simp [hfind], List.mem_of_find?_eq_some hfind, ?_⟩
    have := List.find?_some hfind
    simp at this
    tauto
  | none =>
    have hne : keysOf files ≠ [] := by
      rcases List.any_eq_true.mp hpy with ⟨x, hx, _⟩
      intro hcon
      simp [hcon] at hx
    rcases hhead : (keysOf files).head? with _ | k
    · exact absurd (List.head?_eq_none_iff.mp hhead) hne
    · have hnone := List.find?_eq_none.mp hfind
      refine ⟨k, by simp [hfind, hhead], ?_, ?_⟩
      · exact List.mem_of_mem_head? hhead
      · refine Or.inr (Or.inr ⟨?_, ?_, rfl⟩)
        · intro hm
          have := hnone _ hm
          simp at this
        · intro hm
          have := hnone _ hm
          simp at this

/-- Witness for the amended C6 at the counterexample mapping. -/
theorem python_entry_amended_witness :
    (detectProjectConfig dataTxtFiles).project_type = "python" ∧
    (detectProjectConfig dataTxtFiles).is_server = false ∧
    (detectProjectConfig dataTxtFiles).port = none ∧
    (detectProjectConfig dataTxtFiles).install_command = none ∧
    ∃ e, (detectProjectConfig dataTxtFiles).start_command =
        some ("python " ++ e) ∧
      e ∈ keysOf dataTxtFiles ∧
      (e = "main.py" ∨ e = "app.py" ∨
        ("main.py" ∉ keysOf dataTxtFiles ∧ "app.py" ∉ keysOf dataTxtFiles ∧
          (keysOf dataTxtFiles).head? = some e)) :=
  python_entry_amended dataTxtFiles (by decide) (by decide) (by decide)
    (by decide)

/-- C7 counterexample: on raw output with files `notes.txt` then
`myapp.py`, the parser selects `myapp.py` as main (because `app.py` is
a substring of the lowered path) although no filename equals a
preference-list name; the specification's filename-equality rule would
select the first-inserted `notes.txt` instead. -/
theorem main_file_counterexample :
    parseMultiFileOutput rawMyapp = .ok parsedMyapp ∧
    parsedMyapp.main_file = some "myapp.py" ∧
    specMainChoice (parsedMyapp.files.map Prod.fst) = some "notes.txt" ∧
    (some "myapp.py" : Option String) ≠ some "notes.txt" := by
  refine ⟨rfl, rfl, by decide, by decide⟩

/-- C7 (amended): whenever the parser returns a result, its main file is
the first entry (in section order) whose whole lowercased path contains
one of `app.py`, `main.py`, `index.js`, `app.js`, `server.js` as a
substring; if no entry matches, the first file inserted; and none when
the entry list is empty. -/
theorem main_file_amended (s : String) (r : ParsedOut)
    (h : parseMultiFileOutput s = .ok r) :
    r.main_file =
      (match (entriesOf s).find? (fun e => mainNameHit e.1) with
       | some e => some e.1
       | none => ((entriesOf s).head?).map Prod.fst) := by
  unfold parseMultiFileOutput at h
  unfold entriesOf
  rcases hfs : filesSection s with _ | sect
  · rw [hfs] at h
    simp only [Except.ok.injEq] at h
    subst h
    rfl
  · rw [hfs] at h
    dsimp only at h
    rcases ht : buildFileTree ((sectionEntries sect).foldl
        (fun d e => dictInsert d e.1 e.2) [] |>.map Prod.fst) with e | t
    · rw [ht] at h; cases h
    · rw [ht] at h
      simp only [Except.ok.injEq] at h
      subst h
      dsimp only
      rw [mainFold_eq_find]
      rcases hf : (sectionEntries sect).find? (fun e => mainNameHit e.1) with _ | e
      · rw [hf]
        simpa using filesFold_nil_head_key (sectionEntries sect)
      · rw [hf]
        simp

/-- Witness for the amended C7 at the counterexample raw output. -/
theorem main_file_amended_witness :
    parsedMyapp.main_file =
      (match (entriesOf rawMyapp).find? (fun e => mainNameHit e.1) with
       | some e => some e.1
       | none => ((entriesOf rawMyapp).head?).map Prod.fst) :=
  main_file_amended rawMyapp parsedMyapp rfl

/-- C8 counterexample: on raw output whose files section contains the
path `a` and then `a/b`, the tree builder hits the file/directory
collision and the parse raises (modelled as `Except.error`), refuting
totality of the parse over all inputs. -/
theorem parse_totality_counterexample :
    parseMultiFileOutput rawCollision = .error treeCollisionError := rfl

/-- C8 (amended): for every input with no case-insensitive `files:`
occurrence the parser returns the empty ParsedProject
(files = {}, tree = {}, main = none), and the only way the parser can
fail is the file/directory path-collision `TypeError` from the tree
builder. -/
theorem parse_totality_amended :
    (∀ s : String, containsSub (lowerChars s.toList) "files:".toList = false →
      parseMultiFileOutput s = .ok ⟨[], [], none⟩) ∧
    (∀ (s : String) (m : String), parseMultiFileOutput s = .error m →
      m = treeCollisionError) := by
  constructor
  · intro s h
    unfold parseMultiFileOutput filesSection
    dsimp only
    rw [indexOfSub_eq_none _ _ h]
  · intro s m h
    unfold parseMultiFileOutput at h
    rcases hfs : filesSection s with _ | sect
    · rw [hfs] at h; cases h
    · rw [hfs] at h
      dsimp only at h
      rcases ht : buildFileTree ((sectionEntries sect).foldl
          (fun d e => dictInsert d e.1 e.2) [] |>.map Prod.fst) with e | t
      · rw [ht] at h
        cases h
        exact buildFileTreeGo_error _ _ _ ht
      · rw [ht] at h; cases h

/-- Witness for the amended C8: a section-free input parses to the
empty project, and the collision input's error is the collision
`TypeError`. -/
theorem parse_totality_amended_witness :
    parseMultiFileOutput "hello world" = .ok ⟨[], [], none⟩ ∧
    treeCollisionError = treeCollisionError :=
  ⟨parse_totality_amended.1 "hello world" (by decide),
   parse_totality_amended.2 rawCollision treeCollisionError rfl⟩

/-- C9: when the sandbox exists and the dependency-install step reports
an error, `execute_project` does not return its structured failure
dict — the `finally` block reads the yet-unassigned `is_server` local
and the call raises `UnboundLocalError` (first conjunct); by contrast,
when sandbox creation itself fails the structured failure dict is
returned (second conjunct), showing the boundary conversion the spec
describes is what the surrounding code intends. -/
theorem execute_project_raises_unbound_local :
    executeProject installFailOracle true
        [("app.py", "from flask import Flask")]
        (some "pip install -r requirements.txt") (some "python app.py")
        (some 5000) = .error unboundLocalIsServer ∧
    executeProject createFailOracle true
        [("app.py", "from flask import Flask")]
        (some "pip install -r requirements.txt") (some "python app.py")
        (some 5000) = .ok (sbFail "E2B unreachable") := by
  constructor <;> rfl

/-- C10: every ProjectConfig the classifier produces satisfies
`is_server = true` iff the port is a concrete integer, with the value
pairs (react/express, 5555), (flask, 5000), (fastapi, 8100) and no port
for node, python, javascript and unknown; and every single-file
fallback result has `is_server = false` and no port. -/
theorem server_port_invariant :
    (∀ files,
      ((detectProjectConfig files).is_server =
        (detectProjectConfig files).port.isSome) ∧
      ((detectProjectConfig files).project_type,
        (detectProjectConfig files).is_server,
        (detectProjectConfig files).port) ∈
        ([("react", true, some 5555), ("express", true, some 5555),
          ("flask", true, some 5000), ("fastapi", true, some 8100),
          ("node", false, none), ("python", false, none),
          ("javascript", false, none), ("unknown", false, none)] :
          List (String × Bool × Option Nat))) ∧
    (∀ raw, (handleSingleFile raw).is_server = false ∧
      (handleSingleFile raw).port = none) := by
  constructor
  · intro files
    cases h : lookupStr files "package.json" with
    | some pj =>
      by_cases hr : contentHas pj "react"
      · simp [detectProjectConfig, h, hr]
      · by_cases he : contentHas pj "express" <;>
          simp [detectProjectConfig, h, hr, he]
    | none =>
      by_cases hf : files.any (fun p => contentHas p.2 "flask")
      · simp [detectProjectConfig, h, hf]
      · by_cases hfa : files.any (fun p => contentHas p.2 "fastapi")
        · simp [detectProjectConfig, h, hf, hfa]
        · by_cases hpy : (keysOf files).any (fun f => endsWithStr f ".py")
          · simp [detectProjectConfig, h, hf, hfa, hpy]
          · by_cases hjs : (keysOf files).any (fun f => endsWithStr f ".js") <;>
              simp [detectProjectConfig, h, hf, hfa, hpy, hjs]
  · intro raw
    constructor <;> rfl

end Assistant
